import Mathlib

/-!
Shallow embedding of the core of the juju/testing repository:
the call-recording test double `Stub` (stub.go), its assertion helpers,
the old `Fake` variant (fake.go), and the `CleanupSuite` lifecycle
manager (cleanup.go).  Go slices become Lean lists, Go `interface{}`
values become type parameters, Go `error` values (nilable) become
`Option`, Go panics become `Except.error` / `Option.none`, and the
`*gc.C` check context becomes an explicit failure counter threaded
through the assertion helpers.
-/

/-- From stub.go: `StubCall` records the name of a called function and
the passed args.  `α` stands for Go's `interface{}` argument values. -/
structure StubCall (α : Type) where
  FuncName : String
  Args : List α
  deriving DecidableEq

/-- From stub.go: the `Stub` recorder.  `ρ` is the receiver value type
(`Receivers` entries are `interface{}` and may be nil, hence `Option ρ`)
and `ε` the error type (Go `error` values are nilable, hence `Option ε`). -/
structure Stub (α ρ ε : Type) where
  Calls : List (StubCall α)
  Receivers : List (Option ρ)
  Errors : List (Option ε)
  DefaultError : Option ε
  deriving DecidableEq

/-- The Go zero value of `Stub`: nil slices and a nil default error. -/
def Stub.empty (α ρ ε : Type) : Stub α ρ ε :=
  { Calls := [], Receivers := [], Errors := [], DefaultError := none }

/-- From stub.go `Stub.NextErr`: if `Errors` is empty return
`DefaultError`; otherwise return the head of `Errors` and drop it.
The returned pair is (result, updated stub). -/
def Stub.NextErr (f : Stub α ρ ε) : Option ε × Stub α ρ ε :=
  match f.Errors with
  | [] => (f.DefaultError, f)
  | err :: rest => (err, { f with Errors := rest })

/-- From stub.go `Stub.addCall`: append the call record to `Calls` and
the receiver to `Receivers`. -/
def Stub.addCall (f : Stub α ρ ε) (rcvr : Option ρ) (funcName : String)
    (args : List α) : Stub α ρ ε :=
  { f with
    Calls := f.Calls ++ [{ FuncName := funcName, Args := args }]
    Receivers := f.Receivers ++ [rcvr] }

/-- From stub.go `Stub.AddCall`: record a function call with a nil receiver. -/
def Stub.AddCall (f : Stub α ρ ε) (funcName : String) (args : List α) :
    Stub α ρ ε :=
  f.addCall none funcName args

/-- From stub.go `Stub.MethodCall`: record a method call with its receiver. -/
def Stub.MethodCall (f : Stub α ρ ε) (receiver : ρ) (funcName : String)
    (args : List α) : Stub α ρ ε :=
  f.addCall (some receiver) funcName args

/-- From stub.go `Stub.SetErrors`: replace `Errors` wholesale. -/
def Stub.SetErrors (f : Stub α ρ ε) (errors : List (Option ε)) : Stub α ρ ε :=
  { f with Errors := errors }

/-- A recording operation: an `AddCall` or a `MethodCall` invocation
with its arguments. -/
inductive RecOp (α ρ : Type) where
  | add (funcName : String) (args : List α)
  | method (receiver : ρ) (funcName : String) (args : List α)
  deriving DecidableEq

/-- Apply one recording operation to a stub. -/
def applyRecOp (f : Stub α ρ ε) : RecOp α ρ → Stub α ρ ε
  | RecOp.add n as => f.AddCall n as
  | RecOp.method r n as => f.MethodCall r n as

/-- Run a chronological sequence of recording operations on a stub. -/
def runRecOps (f : Stub α ρ ε) (ops : List (RecOp α ρ)) : Stub α ρ ε :=
  ops.foldl applyRecOp f

/-- The call record a recording operation appends. -/
def recOpCall : RecOp α ρ → StubCall α
  | RecOp.add n as => { FuncName := n, Args := as }
  | RecOp.method _ n as => { FuncName := n, Args := as }

/-- The receiver entry a recording operation appends: the receiver for
`MethodCall`, nil for `AddCall`. -/
def recOpRcvr : RecOp α ρ → Option ρ
  | RecOp.add _ _ => none
  | RecOp.method r _ _ => some r

/-- Any of the four stub operations of the claims: the two recording
operations, `NextErr` (state effect only) and `SetErrors`. -/
inductive StubOp (α ρ ε : Type) where
  | add (funcName : String) (args : List α)
  | method (receiver : ρ) (funcName : String) (args : List α)
  | nextErr
  | setErrors (errors : List (Option ε))
  deriving DecidableEq

/-- Apply one stub operation to a stub (for `NextErr`, keep the updated state). -/
def applyStubOp (f : Stub α ρ ε) : StubOp α ρ ε → Stub α ρ ε
  | StubOp.add n as => f.AddCall n as
  | StubOp.method r n as => f.MethodCall r n as
  | StubOp.nextErr => f.NextErr.2
  | StubOp.setErrors es => f.SetErrors es

/-- Run a sequence of stub operations. -/
def runStubOps (f : Stub α ρ ε) (ops : List (StubOp α ρ ε)) : Stub α ρ ε :=
  ops.foldl applyStubOp f

/-- Iterate `NextErr` `n` times, collecting the returned errors in order
together with the final stub state. -/
def nextErrRun (f : Stub α ρ ε) : Nat → List (Option ε) × Stub α ρ ε
  | 0 => ([], f)
  | Nat.succ n =>
    let step := f.NextErr
    let rest := nextErrRun step.2 n
    (step.1 :: rest.1, rest.2)

/-- Minimal model of the gopkg.in/check.v1 `*gc.C` handle as used by the
stub's `Check*` helpers: a counter of non-fatally reported check failures. -/
structure CheckCtx where
  failures : Nat
  deriving DecidableEq

/-- Model of `c.Check(...)`: the checker outcome is `ok`; a failed check
is recorded non-fatally (the counter grows) and the outcome is returned
so the caller may continue. -/
def checkWith (c : CheckCtx) (ok : Bool) : CheckCtx × Bool :=
  (if ok then c else { failures := c.failures + 1 }, ok)

/-- Modelled from the spec: the `LessThan` checker of the checkers
package, applied as `c.Check(index, jc.LessThan, len(f.Calls))`, is code
of this repository that is not under src/.  The spec constrains it only
through `CheckCall`, which must "fail gracefully (reporting, not
crashing) if `index` is out of range", index-out-of-range checks "must
also not panic"; so the bound check on an index against the recorded
call count succeeds exactly when the index is a valid position. -/
def lessThanIndexCheck (index : Int) (callCount : Nat) : Bool :=
  decide (0 ≤ index ∧ index < (callCount : Int))

/-- Go slice indexing `xs[i]` with an `int` index: `some` element when
`0 ≤ i < len`, `none` standing for the runtime panic otherwise. -/
def goElem (xs : List β) (i : Int) : Option β :=
  if h : 0 ≤ i ∧ i.toNat < xs.length then some (xs.get ⟨i.toNat, h.2⟩)
  else none

/-- From stub.go `stubCallNames`: the in-order list of recorded call names. -/
def stubCallNames (calls : List (StubCall α)) : List String :=
  calls.map (fun call => call.FuncName)

/-- From stub.go `Stub.CheckCallNames`: check that the in-order list of
called names equals the expectation; return the updated context and the
check outcome. -/
def Stub.CheckCallNames [DecidableEq α] (f : Stub α ρ ε) (c : CheckCtx)
    (expected : List String) : CheckCtx × Bool :=
  checkWith c (decide (stubCallNames f.Calls = expected))

/-- From stub.go `Stub.CheckCalls`: first check the name sequence alone;
only when that check succeeds, check full (deep) equality of the call
records.  Receivers are not checked. -/
def Stub.CheckCalls [DecidableEq α] (f : Stub α ρ ε) (c : CheckCtx)
    (expected : List (StubCall α)) : CheckCtx :=
  let names := f.CheckCallNames c (stubCallNames expected)
  if names.2 then (checkWith names.1 (decide (f.Calls = expected))).1
  else names.1

/-- From stub.go `Stub.CheckCall`: check the bound `index <
len(f.Calls)` first and return on failure; otherwise read
`f.Calls[index]` (Go indexing, which panics when the index is negative —
`none` models the panic) and check deep equality against the expected
record.  The receiver is not checked. -/
def Stub.CheckCall [DecidableEq α] (f : Stub α ρ ε) (c : CheckCtx)
    (index : Int) (funcName : String) (args : List α) : Option CheckCtx :=
  let bound := checkWith c (lessThanIndexCheck index f.Calls.length)
  if bound.2 then
    match goElem f.Calls index with
    | none => none
    | some call =>
      some (checkWith bound.1
        (decide (call = { FuncName := funcName, Args := args }))).1
  else some bound.1

/-- From cleanup.go: the `CleanupSuite` lifecycle manager.  Cleanup
functions are modelled as opaque labels of type `κ`; "running" a stack
yields the list of labels in execution order.  The Go struct's
`suiteSuite`/`testSuite` pointer fields hold either nil or the address
of the suite that received the setup signal; `addr` is this instance's
own address, `suiteSuite`/`testSuite` store the recorded address. -/
structure CleanupSuite (κ : Type) where
  addr : Nat
  testStack : List κ
  suiteStack : List κ
  suiteSuite : Option Nat
  testSuite : Option Nat
  deriving DecidableEq

/-- A freshly allocated (Go zero value) suite at address `a`: nil
stacks and nil suite pointers. -/
def CleanupSuite.new (κ : Type) (a : Nat) : CleanupSuite κ :=
  { addr := a, testStack := [], suiteStack := [], suiteSuite := none,
    testSuite := none }

/-- From cleanup.go `CleanupSuite.callStack`: run the stack entries from
index `len-1` down to `0`; the result is the execution order trace.
`callStackFrom stack (i+1)` runs entries `i, i-1, ..., 0`. -/
def callStackFrom (stack : List κ) : Nat → List κ
  | 0 => []
  | Nat.succ i =>
    match stack.get? i with
    | some entry => entry :: callStackFrom stack i
    | none => callStackFrom stack i

/-- From cleanup.go `CleanupSuite.callStack`: the loop starts at
`len(stack) - 1`. -/
def CleanupSuite.callStack (stack : List κ) : List κ :=
  callStackFrom stack stack.length

/-- From cleanup.go `CleanupSuite.SetUpSuite`: clear the suite stack and
record this instance as the authoritative one. -/
def CleanupSuite.SetUpSuite (s : CleanupSuite κ) : CleanupSuite κ :=
  { s with suiteStack := [], suiteSuite := some s.addr }

/-- From cleanup.go `CleanupSuite.TearDownSuite`: run the suite stack
(returning its execution trace) and clear the authoritative pointer. -/
def CleanupSuite.TearDownSuite (s : CleanupSuite κ) :
    List κ × CleanupSuite κ :=
  (CleanupSuite.callStack s.suiteStack, { s with suiteSuite := none })

/-- From cleanup.go `CleanupSuite.SetUpTest`: clear the test stack and
record this instance as authoritative for test scope. -/
def CleanupSuite.SetUpTest (s : CleanupSuite κ) : CleanupSuite κ :=
  { s with testStack := [], testSuite := some s.addr }

/-- From cleanup.go `CleanupSuite.TearDownTest`: run the test stack
(returning its execution trace) and clear the test pointer. -/
def CleanupSuite.TearDownTest (s : CleanupSuite κ) :
    List κ × CleanupSuite κ :=
  (CleanupSuite.callStack s.testStack, { s with testSuite := none })

/-- From cleanup.go `CleanupSuite.AddCleanup`: panic (modelled as
`Except.error` carrying the panic message) when no suite is set up or
when called through a copy of the authoritative instance; otherwise push
onto the suite stack when no test is active, else onto the test stack. -/
def CleanupSuite.AddCleanup (s : CleanupSuite κ) (cleanup : κ) :
    Except String (CleanupSuite κ) :=
  if s.suiteSuite = none then
    Except.error "unsafe to call AddCleanup without a Suite"
  else if s.suiteSuite ≠ some s.addr then
    Except.error "unsafe to call AddCleanup from non pointer receiver test"
  else if s.testSuite = none then
    Except.ok { s with suiteStack := s.suiteStack ++ [cleanup] }
  else
    Except.ok { s with testStack := s.testStack ++ [cleanup] }

/-- From fake.go (older variant): `FakeCallArgs` is a map from argument
name to value, modelled as an association list. -/
def FakeCallArgs (α : Type) : Type := List (String × α)

/-- From fake.go (older variant): a recorded call of the old `Fake`. -/
structure FakeCall (α : Type) where
  FuncName : String
  Args : List (String × α)
  deriving DecidableEq

/-- From fake.go (older variant): the old `Fake` with its private
`calls` list, the `Err` to dispense and the `FailOnCall` index (a Go
`int`, hence `Int`). -/
structure Fake (α ε : Type) where
  calls : List (FakeCall α)
  Err : Option ε
  FailOnCall : Int
  deriving DecidableEq

/-- From fake.go (older variant) `Fake.Error`: return nil unless the
number of recorded calls equals `FailOnCall + 1`, in which case return
`Err`. -/
def Fake.Error (f : Fake α ε) : Option ε :=
  if (f.calls.length : Int) ≠ f.FailOnCall + 1 then none else f.Err

/-- From fake.go (older variant) `Fake.AddCall`: append a call record. -/
def Fake.AddCall (f : Fake α ε) (funcName : String)
    (args : List (String × α)) : Fake α ε :=
  { f with calls := f.calls ++ [{ FuncName := funcName, Args := args }] }

lemma applyRecOp_Calls (f : Stub α ρ ε) (op : RecOp α ρ) :
    (applyRecOp f op).Calls = f.Calls ++ [recOpCall op] := by
  cases op <;> rfl

lemma applyRecOp_Receivers (f : Stub α ρ ε) (op : RecOp α ρ) :
    (applyRecOp f op).Receivers = f.Receivers ++ [recOpRcvr op] := by
  cases op <;> rfl

lemma runRecOps_Calls (ops : List (RecOp α ρ)) :
    ∀ f : Stub α ρ ε, (runRecOps f ops).Calls = f.Calls ++ ops.map recOpCall := by
  induction ops with
  | nil => intro f; simp [runRecOps]
  | cons op ops ih =>
    intro f
    have h1 : runRecOps f (op :: ops) = runRecOps (applyRecOp f op) ops := rfl
    rw [h1, ih, applyRecOp_Calls]
    simp

lemma runRecOps_Receivers (ops : List (RecOp α ρ)) :
    ∀ f : Stub α ρ ε,
      (runRecOps f ops).Receivers = f.Receivers ++ ops.map recOpRcvr := by
  induction ops with
  | nil => intro f; simp [runRecOps]
  | cons op ops ih =>
    intro f
    have h1 : runRecOps f (op :: ops) = runRecOps (applyRecOp f op) ops := rfl
    rw [h1, ih, applyRecOp_Receivers]
    simp

lemma nextErr_preserves (f : Stub α ρ ε) :
    f.NextErr.2.Calls = f.Calls ∧ f.NextErr.2.Receivers = f.Receivers ∧
      f.NextErr.2.DefaultError = f.DefaultError := by
  cases h : f.Errors <;> simp [Stub.NextErr, h]

lemma applyStubOp_aligned (f : Stub α ρ ε) (op : StubOp α ρ ε)
    (h : f.Receivers.length = f.Calls.length) :
    (applyStubOp f op).Receivers.length = (applyStubOp f op).Calls.length := by
  cases op with
  | add n as => simp [applyStubOp, Stub.AddCall, Stub.addCall, h]
  | method r n as => simp [applyStubOp, Stub.MethodCall, Stub.addCall, h]
  | nextErr =>
    simp [applyStubOp, (nextErr_preserves f).1, (nextErr_preserves f).2.1, h]
  | setErrors es => simp [applyStubOp, Stub.SetErrors, h]

lemma runStubOps_aligned (ops : List (StubOp α ρ ε)) :
    ∀ f : Stub α ρ ε, f.Receivers.length = f.Calls.length →
      (runStubOps f ops).Receivers.length = (runStubOps f ops).Calls.length := by
  induction ops with
  | nil => intro f h; simpa [runStubOps] using h
  | cons op ops ih =>
    intro f h
    have h1 : runStubOps f (op :: ops) = runStubOps (applyStubOp f op) ops := rfl
    rw [h1]
    exact ih _ (applyStubOp_aligned f op h)

lemma nextErrRun_Errors (n : Nat) :
    ∀ f : Stub α ρ ε, (nextErrRun f n).2.Errors = f.Errors.drop n := by
  induction n with
  | zero => intro f; simp [nextErrRun]
  | succ n ih =>
    intro f
    cases h : f.Errors with
    | nil => simp [nextErrRun, Stub.NextErr, h, ih]
    | cons e rest => simp [nextErrRun, Stub.NextErr, h, ih]

lemma nextErrRun_DefaultError (n : Nat) :
    ∀ f : Stub α ρ ε, (nextErrRun f n).2.DefaultError = f.DefaultError := by
  induction n with
  | zero => intro f; simp [nextErrRun]
  | succ n ih =>
    intro f
    cases h : f.Errors with
    | nil => simp [nextErrRun, Stub.NextErr, h, ih]
    | cons e rest => simp [nextErrRun, Stub.NextErr, h, ih]

lemma nextErrRun_results (n : Nat) :
    ∀ f : Stub α ρ ε,
      (nextErrRun f n).1 =
        f.Errors.take n ++ List.replicate (n - f.Errors.length) f.DefaultError := by
  induction n with
  | zero => intro f; simp [nextErrRun]
  | succ n ih =>
    intro f
    cases h : f.Errors with
    | nil => simp [nextErrRun, Stub.NextErr, h, ih, List.replicate_succ]
    | cons e rest =>
      simp [nextErrRun, Stub.NextErr, h, ih, Nat.succ_sub_succ]

lemma callStackFrom_eq_take_reverse (stack : List κ) :
    ∀ n, callStackFrom stack n = (stack.take n).reverse := by
  intro n
  induction n with
  | zero => simp [callStackFrom]
  | succ n ih =>
    cases h : stack.get? n with
    | none =>
      have hlen : stack.length ≤ n := List.get?_eq_none.mp h
      rw [callStackFrom, h, ih, List.take_of_length_le hlen,
        List.take_of_length_le (Nat.le_succ_of_le hlen)]
    | some entry =>
      have h2 : stack[n]? = some entry := by
        rw [← List.get?_eq_getElem?]; exact h
      rw [callStackFrom, h, ih, List.take_succ, h2]
      simp

lemma callStack_eq_reverse (stack : List κ) :
    CleanupSuite.callStack stack = stack.reverse := by
  rw [CleanupSuite.callStack, callStackFrom_eq_take_reverse, List.take_length]

/-- C1: for every sequence of N `AddCall`/`MethodCall` invocations on a
recorder starting from the zero value, the `Calls` history has exactly N
entries in chronological invocation order, each preserving exactly the
function name and argument sequence given, and the corresponding
`Receivers` entry is the passed receiver for `MethodCall` and nil for
`AddCall`. -/
theorem stub_recording_history (α ρ ε : Type) (ops : List (RecOp α ρ)) :
    (runRecOps (Stub.empty α ρ ε) ops).Calls = ops.map recOpCall ∧
    (runRecOps (Stub.empty α ρ ε) ops).Receivers = ops.map recOpRcvr ∧
    (runRecOps (Stub.empty α ρ ε) ops).Calls.length = ops.length := by
  refine ⟨?_, ?_, ?_⟩ <;>
    simp [runRecOps_Calls, runRecOps_Receivers, Stub.empty]

/-- C8: starting from the zero value, after any sequence of `AddCall`,
`MethodCall`, `NextErr` and `SetErrors` operations the `Receivers` and
`Calls` lists have equal length; each recording operation appends
exactly one element to both lists, while `NextErr` and `SetErrors`
modify neither list. -/
theorem stub_receivers_calls_aligned (α ρ ε : Type) :
    (∀ ops : List (StubOp α ρ ε),
      (runStubOps (Stub.empty α ρ ε) ops).Receivers.length =
        (runStubOps (Stub.empty α ρ ε) ops).Calls.length) ∧
    (∀ (f : Stub α ρ ε) (n : String) (as : List α),
      (f.AddCall n as).Calls = f.Calls ++ [{ FuncName := n, Args := as }] ∧
      (f.AddCall n as).Receivers = f.Receivers ++ [none]) ∧
    (∀ (f : Stub α ρ ε) (r : ρ) (n : String) (as : List α),
      (f.MethodCall r n as).Calls = f.Calls ++ [{ FuncName := n, Args := as }] ∧
      (f.MethodCall r n as).Receivers = f.Receivers ++ [some r]) ∧
    (∀ f : Stub α ρ ε,
      f.NextErr.2.Calls = f.Calls ∧ f.NextErr.2.Receivers = f.Receivers) ∧
    (∀ (f : Stub α ρ ε) (es : List (Option ε)),
      (f.SetErrors es).Calls = f.Calls ∧ (f.SetErrors es).Receivers = f.Receivers) := by
  refine ⟨fun ops => runStubOps_aligned ops _ rfl, ?_, ?_, ?_, ?_⟩
  · intro f n as; exact ⟨rfl, rfl⟩
  · intro f r n as; exact ⟨rfl, rfl⟩
  · intro f; exact ⟨(nextErr_preserves f).1, (nextErr_preserves f).2.1⟩
  · intro f es; exact ⟨rfl, rfl⟩

/-- C2: after `SetErrors [e1..ek]`, the results of the first `n` calls
to `NextErr` are the first `n` programmed errors, padded with
`DefaultError` once the `k` programmed errors are exhausted (so calls
`1..k` return `e1..ek` in order, call `k+1` onward returns
`DefaultError`), and after `i` calls the pending `Errors` list is the
programmed list with its first `i` elements removed (hence empty from
the `k`-th call on). -/
theorem stub_setErrors_nextErr_sequence (α ρ ε : Type) (f : Stub α ρ ε)
    (es : List (Option ε)) :
    (∀ n : Nat, (nextErrRun (f.SetErrors es) n).1 =
      es.take n ++ List.replicate (n - es.length) f.DefaultError) ∧
    (∀ i : Nat, (nextErrRun (f.SetErrors es) i).2.Errors = es.drop i) := by
  constructor
  · intro n
    rw [nextErrRun_results]
    rfl
  · intro i
    rw [nextErrRun_Errors]
    rfl

/-- C9: whenever `Errors` is non-empty, `NextErr` returns its head (even
a nil head), ignoring `DefaultError`, which is consulted only when
`Errors` is empty; in particular with `Errors = [nil, e]` and a non-nil
`DefaultError` the first call returns nil and the second returns `e`. -/
theorem stub_nextErr_head_priority (α ρ ε : Type) :
    (∀ (f : Stub α ρ ε) (e : Option ε) (rest : List (Option ε)),
      f.Errors = e :: rest →
      f.NextErr = (e, { f with Errors := rest })) ∧
    (∀ (f : Stub α ρ ε) (e d : ε),
      f.Errors = [none, some e] → f.DefaultError = some d →
      f.NextErr.1 = none ∧ f.NextErr.2.NextErr.1 = some e) := by
  constructor
  · intro f e rest h
    simp [Stub.NextErr, h]
  · intro f e d h hd
    simp [Stub.NextErr, h]

/-- Witness for C9 at concrete inputs. -/
theorem stub_nextErr_head_priority_witness :
    (Stub.NextErr ⟨[], [], [some 5], none⟩ =
      ((some 5 : Option Nat), (⟨[], [], [], none⟩ : Stub Nat Nat Nat))) ∧
    ((⟨[], [], [none, some 3], some 7⟩ : Stub Nat Nat Nat).NextErr.1 = none ∧
      (⟨[], [], [none, some 3], some 7⟩ :
        Stub Nat Nat Nat).NextErr.2.NextErr.1 = some 3) :=
  ⟨(stub_nextErr_head_priority Nat Nat Nat).1 _ (some 5) [] rfl,
    (stub_nextErr_head_priority Nat Nat Nat).2 _ 3 7 rfl rfl⟩

/-- C3: cleanups registered in order `[c1, c2, c3]` at test scope run at
`TearDownTest` exactly once each in reverse order `[c3, c2, c1]`; in
general the teardown of either stack runs the registered actions in
strict LIFO order (the execution trace is the stack reversed). -/
theorem cleanup_lifo_order (κ : Type) (a : Nat) (c1 c2 c3 : κ) :
    (∀ stack : List κ, CleanupSuite.callStack stack = stack.reverse) ∧
    ((((CleanupSuite.new κ a).SetUpSuite.SetUpTest.AddCleanup c1).bind
        (fun s => s.AddCleanup c2)).bind (fun s => s.AddCleanup c3)).map
      (fun s => s.TearDownTest.1) = Except.ok [c3, c2, c1] := by
  refine ⟨callStack_eq_reverse, ?_⟩
  simp [CleanupSuite.new, CleanupSuite.SetUpSuite, CleanupSuite.SetUpTest,
    CleanupSuite.AddCleanup, CleanupSuite.TearDownTest, Except.bind,
    Except.map, callStack_eq_reverse]

/-- C4: with the suite set up on the authoritative instance, registering
a cleanup while no test is active records it at suite scope: it is
absent from the test-end trace and runs exactly once in the suite-end
trace; conversely, registering while a test is active records it at test
scope: it runs exactly once in that test-end trace and is absent from a
subsequent suite-end trace. -/
theorem cleanup_scope_registration (κ : Type) [DecidableEq κ]
    (s : CleanupSuite κ) (cl : κ) (hauth : s.suiteSuite = some s.addr) :
    (s.testSuite = none →
      s.AddCleanup cl =
        Except.ok { s with suiteStack := s.suiteStack ++ [cl] } ∧
      (cl ∉ s.testStack →
        cl ∉ ({ s with suiteStack := s.suiteStack ++ [cl] } :
          CleanupSuite κ).TearDownTest.1) ∧
      (cl ∉ s.suiteStack →
        (({ s with suiteStack := s.suiteStack ++ [cl] } :
          CleanupSuite κ).TearDownSuite.1).count cl = 1)) ∧
    (s.testSuite ≠ none →
      s.AddCleanup cl =
        Except.ok { s with testStack := s.testStack ++ [cl] } ∧
      (cl ∉ s.testStack →
        (({ s with testStack := s.testStack ++ [cl] } :
          CleanupSuite κ).TearDownTest.1).count cl = 1) ∧
      (cl ∉ s.suiteStack →
        cl ∉ (({ s with testStack := s.testStack ++ [cl] } :
          CleanupSuite κ).TearDownTest.2).TearDownSuite.1)) := by
  constructor
  · intro htest
    refine ⟨?_, ?_, ?_⟩
    · simp [CleanupSuite.AddCleanup, hauth, htest]
    · intro hnot
      simp [CleanupSuite.TearDownTest, callStack_eq_reverse, hnot]
    · intro hnot
      simp [CleanupSuite.TearDownSuite, callStack_eq_reverse,
        List.count_eq_zero.mpr hnot]
  · intro htest
    refine ⟨?_, ?_, ?_⟩
    · simp [CleanupSuite.AddCleanup, hauth, htest]
    · intro hnot
      simp [CleanupSuite.TearDownTest, callStack_eq_reverse,
        List.count_eq_zero.mpr hnot]
    · intro hnot
      simp [CleanupSuite.TearDownTest, CleanupSuite.TearDownSuite,
        callStack_eq_reverse, hnot]

/-- Witness for C4: both registration scopes at concrete suites. -/
theorem cleanup_scope_registration_witness :
    ((⟨0, [], [], some 0, none⟩ : CleanupSuite Nat).AddCleanup 5 =
      Except.ok ⟨0, [], [5], some 0, none⟩ ∧
      5 ∉ (⟨0, [], [5], some 0, none⟩ : CleanupSuite Nat).TearDownTest.1 ∧
      ((⟨0, [], [5], some 0, none⟩ :
        CleanupSuite Nat).TearDownSuite.1).count 5 = 1) ∧
    ((⟨0, [], [], some 0, some 0⟩ : CleanupSuite Nat).AddCleanup 5 =
      Except.ok ⟨0, [5], [], some 0, some 0⟩ ∧
      ((⟨0, [5], [], some 0, some 0⟩ :
        CleanupSuite Nat).TearDownTest.1).count 5 = 1 ∧
      5 ∉ ((⟨0, [5], [], some 0, some 0⟩ :
        CleanupSuite Nat).TearDownTest.2).TearDownSuite.1) := by
  constructor
  · have h := (cleanup_scope_registration Nat
      (⟨0, [], [], some 0, none⟩ : CleanupSuite Nat) 5 rfl).1 rfl
    exact ⟨h.1, h.2.1 (by decide), h.2.2 (by decide)⟩
  · have h := (cleanup_scope_registration Nat
      (⟨0, [], [], some 0, some 0⟩ : CleanupSuite Nat) 5 rfl).2
      (by simp)
    exact ⟨h.1, h.2.1 (by decide), h.2.2 (by decide)⟩

/-- C5: calling `AddCleanup` with no suite set up — before `SetUpSuite`
(the zero value) or after `TearDownSuite` — fails loudly with "unsafe to
call AddCleanup without a Suite" instead of silently succeeding or doing
nothing, and calling it on a copy (distinct address) of the instance
that received `SetUpSuite` fails with "unsafe to call AddCleanup from
non pointer receiver test". -/
theorem cleanup_addCleanup_misuse (κ : Type) :
    (∀ (s : CleanupSuite κ) (cl : κ), s.suiteSuite = none →
      s.AddCleanup cl =
        Except.error "unsafe to call AddCleanup without a Suite") ∧
    (∀ (a : Nat) (cl : κ), (CleanupSuite.new κ a).AddCleanup cl =
      Except.error "unsafe to call AddCleanup without a Suite") ∧
    (∀ (s : CleanupSuite κ) (cl : κ), s.TearDownSuite.2.AddCleanup cl =
      Except.error "unsafe to call AddCleanup without a Suite") ∧
    (∀ (s : CleanupSuite κ) (a2 : Nat) (cl : κ),
      s.suiteSuite = some s.addr → a2 ≠ s.addr →
      ({ s with addr := a2 } : CleanupSuite κ).AddCleanup cl =
        Except.error "unsafe to call AddCleanup from non pointer receiver test") := by
  refine ⟨?_, ?_, ?_, ?_⟩
  · intro s cl h
    simp [CleanupSuite.AddCleanup, h]
  · intro a cl
    simp [CleanupSuite.AddCleanup, CleanupSuite.new]
  · intro s cl
    simp [CleanupSuite.AddCleanup, CleanupSuite.TearDownSuite]
  · intro s a2 cl hauth hne
    simp only [CleanupSuite.AddCleanup, hauth]
    rw [if_neg (by simp),
      if_pos (fun h => hne (Option.some.inj h).symm)]

/-- Witness for C5: the zero-value suite and a copied suite at concrete
addresses. -/
theorem cleanup_addCleanup_misuse_witness :
    ((⟨0, [], [], none, none⟩ : CleanupSuite Nat).AddCleanup 1 =
      Except.error "unsafe to call AddCleanup without a Suite") ∧
    ((⟨1, [], [], some 0, none⟩ : CleanupSuite Nat).AddCleanup 2 =
      Except.error "unsafe to call AddCleanup from non pointer receiver test") :=
  ⟨(cleanup_addCleanup_misuse Nat).1 _ 1 rfl,
    (cleanup_addCleanup_misuse Nat).2.2.2
      (⟨0, [], [], some 0, none⟩ : CleanupSuite Nat) 1 2 rfl (by decide)⟩

/-- C6: for every index (negative or beyond the recorded history) and
every recorded history, `CheckCall` does not panic (`isSome` — the
`none` value models a Go runtime panic); when the index is out of range
it reports exactly one non-fatal check failure and returns without
inspecting the `Calls` list (the result depends only on the incoming
check context). -/
theorem stub_checkCall_no_panic (α ρ ε : Type) [DecidableEq α] :
    (∀ (f : Stub α ρ ε) (c : CheckCtx) (index : Int) (funcName : String)
      (args : List α),
      (f.CheckCall c index funcName args).isSome = true) ∧
    (∀ (f : Stub α ρ ε) (c : CheckCtx) (index : Int) (funcName : String)
      (args : List α),
      ¬ (0 ≤ index ∧ index < (f.Calls.length : Int)) →
      f.CheckCall c index funcName args =
        some { failures := c.failures + 1 }) := by
  constructor
  · intro f c index funcName args
    by_cases h : 0 ≤ index ∧ index < (f.Calls.length : Int)
    · have hb : lessThanIndexCheck index f.Calls.length = true := by
        simp [lessThanIndexCheck, h.1, h.2]
      have hmem : 0 ≤ index ∧ index.toNat < f.Calls.length :=
        ⟨h.1, (Int.toNat_lt h.1).mpr h.2⟩
      have hg : goElem f.Calls index =
          some (f.Calls.get ⟨index.toNat, hmem.2⟩) := by
        rw [goElem, dif_pos hmem]
      simp [Stub.CheckCall, checkWith, hb, hg]
    · have hb : lessThanIndexCheck index f.Calls.length = false :=
        decide_eq_false h
      simp [Stub.CheckCall, checkWith, hb]
  · intro f c index funcName args h
    have hb : lessThanIndexCheck index f.Calls.length = false :=
      decide_eq_false h
    simp [Stub.CheckCall, checkWith, hb]

/-- Witness for C6: a negative index against an empty history reports
one failure without panicking. -/
theorem stub_checkCall_no_panic_witness :
    Stub.CheckCall (Stub.empty Nat Nat Nat) { failures := 0 } (-1) "x" [] =
      some { failures := 1 } :=
  (stub_checkCall_no_panic Nat Nat Nat).2 _ _ (-1) "x" [] (by decide)

/-- C7: `CheckCalls` first checks the name sequence alone and performs
the full-equality comparison only when the name check succeeded: on a
name mismatch exactly the one name-check failure is reported and the
full comparison is skipped; overall, `CheckCalls` reports no failure
precisely when the recorded history equals the expected sequence in
names, argument lists, order and count. -/
theorem stub_checkCalls_names_first (α ρ ε : Type) [DecidableEq α] :
    (∀ (f : Stub α ρ ε) (c : CheckCtx) (expected : List (StubCall α)),
      stubCallNames f.Calls ≠ stubCallNames expected →
      f.CheckCalls c expected = { failures := c.failures + 1 }) ∧
    (∀ (f : Stub α ρ ε) (c : CheckCtx) (expected : List (StubCall α)),
      (f.CheckCalls c expected).failures = c.failures ↔
        f.Calls = expected) := by
  constructor
  · intro f c expected h
    simp [Stub.CheckCalls, Stub.CheckCallNames, checkWith, h]
  · intro f c expected
    constructor
    · intro h
      by_contra hne
      by_cases hn : stubCallNames f.Calls = stubCallNames expected
      · simp [Stub.CheckCalls, Stub.CheckCallNames, checkWith, hn, hne] at h
      · simp [Stub.CheckCalls, Stub.CheckCallNames, checkWith, hn] at h
    · intro h
      simp [Stub.CheckCalls, Stub.CheckCallNames, checkWith, h]

/-- Witness for C7: a name mismatch reports exactly one failure, and a
matching history reports none. -/
theorem stub_checkCalls_names_first_witness :
    Stub.CheckCalls
      (⟨[{ FuncName := "a", Args := [] }], [none], [], none⟩ :
        Stub Nat Nat Nat) { failures := 0 } [] = { failures := 1 } ∧
    (Stub.CheckCalls
      (⟨[{ FuncName := "a", Args := [] }], [none], [], none⟩ :
        Stub Nat Nat Nat) { failures := 0 }
      [{ FuncName := "a", Args := [] }]).failures = 0 :=
  ⟨(stub_checkCalls_names_first Nat Nat Nat).1 _ _ [] (by decide),
    ((stub_checkCalls_names_first Nat Nat Nat).2 _ { failures := 0 } _).mpr
      rfl⟩

/-- C10 counterexample: the claim "calling Error() before any AddCall
never returns Err" fails at the concrete input `FailOnCall = -1` with
`Err` set: with no calls recorded, `len(calls) = 0 = FailOnCall + 1`,
so `Error()` returns `Err`, not nil. -/
theorem fake_error_before_addCall_cex :
    ({ calls := [], Err := some 0, FailOnCall := -1 } :
      Fake Nat Nat).Error = some 0 ∧
    (some 0 : Option Nat) ≠ none := by
  refine ⟨rfl, by decide⟩

/-- C10 amended: `Fake.Error` returns `Err` exactly when the number of
recorded calls equals `FailOnCall + 1` and nil for every other call
count; provided `FailOnCall` is nonnegative, calling `Error()` before
any `AddCall` returns nil (with `FailOnCall = -1` it returns `Err`
immediately); with `FailOnCall` at its zero value only a history of
exactly one recorded call yields `Err`. -/
theorem fake_error_fail_on_call (α ε : Type) (f : Fake α ε) :
    (f.Error =
      if (f.calls.length : Int) = f.FailOnCall + 1 then f.Err else none) ∧
    (0 ≤ f.FailOnCall → f.calls = [] → f.Error = none) ∧
    (f.FailOnCall = 0 →
      (f.calls.length = 1 → f.Error = f.Err) ∧
      (f.calls.length ≠ 1 → f.Error = none)) := by
  refine ⟨?_, ?_, ?_⟩
  · by_cases h : (f.calls.length : Int) = f.FailOnCall + 1
    · simp [Fake.Error, h]
    · simp [Fake.Error, h]
  · intro hpos hcalls
    have hne : ((f.calls.length : Int) ≠ f.FailOnCall + 1) := by
      rw [hcalls]
      simp only [List.length_nil, Nat.cast_zero]
      omega
    simp [Fake.Error, hne]
  · intro hzero
    constructor
    · intro hone
      have heq : ((f.calls.length : Int) = f.FailOnCall + 1) := by
        rw [hone, hzero]; rfl
      simp [Fake.Error, heq]
    · intro hone
      have hne : ((f.calls.length : Int) ≠ f.FailOnCall + 1) := by
        rw [hzero]
        intro hc
        exact hone (by omega)
      simp [Fake.Error, hne]

/-- Witness for C10 at concrete fakes: with `FailOnCall = 0`, one
recorded call yields `Err` and an empty history yields nil. -/
theorem fake_error_fail_on_call_witness :
    ({ calls := [{ FuncName := "a", Args := [] }], Err := some 4,
        FailOnCall := 0 } : Fake Nat Nat).Error = some 4 ∧
    ({ calls := [], Err := some 4, FailOnCall := 0 } :
      Fake Nat Nat).Error = none :=
  ⟨((fake_error_fail_on_call Nat Nat _).2.2 rfl).1 rfl,
    (fake_error_fail_on_call Nat Nat _).2.1 (by decide) rfl⟩
